import Mathlib

/-!
# Verification of the 6502-family CPU core (nevisdale/nes-emulator)

Shallow embedding of the CPU instruction-execution core.  Machine
integers are modelled as `Nat` with explicit `% 2^w` where overflow
matters (uint8 values live below 256, uint16 below 65536; the `% 256`
and `% 65536` reductions appear exactly where the Go code's types force
a truncation).  The memory bus (`ReadWriter`) becomes a function from
addresses to stored bytes that is threaded explicitly through every
operation that may touch it.

Pieces of the repository referenced from the examined source but whose
bodies are not part of it (`parseOpcodeMatrix` and the per-opcode
handlers / addressing-mode resolver bodies) are either modelled from the
spec (marked `Modelled from the spec:`) or taken as parameters, so every
theorem quantifies over them.
-/

namespace NesCpu

/-- The memory bus (Go interface `ReadWriter`): a total assignment of a
stored byte to every address.  Writes by opcode handlers are modelled by
returning a new bus function. -/
def Mem : Type := Nat → Nat

/-- `Read8` of the bus: the address is a uint16 (`% 65536`) and the
returned value a uint8 (`% 256`). -/
def read8 (m : Mem) (addr : Nat) : Nat :=
  m (addr % 65536) % 256

/-- Flag bit masks, from the `flagXBit` constants. -/
def flagCBit : Nat := 1
/-- Zero flag mask. -/
def flagZBit : Nat := 2
/-- Interrupt Disable flag mask. -/
def flagIBit : Nat := 4
/-- Decimal Mode flag mask. -/
def flagDBit : Nat := 8
/-- Break Command flag mask. -/
def flagBBit : Nat := 16
/-- Unused flag mask. -/
def flagUBit : Nat := 32
/-- Overflow flag mask. -/
def flagVBit : Nat := 64
/-- Negative flag mask. -/
def flagNBit : Nat := 128

/-- The mutable register/scratch state of the Go `CPU` struct (the bus
and the immutable instruction table are kept outside so that the state
has decidable equality).  All fields are uint8 except `pc`, `addrAbs`,
`addrRel` (uint16) and `clockCounter` (uint64). -/
structure CPUState where
  regA : Nat
  regX : Nat
  regY : Nat
  sp : Nat
  pc : Nat
  status : Nat
  fetched : Nat
  addrAbs : Nat
  addrRel : Nat
  opcode : Nat
  cycles : Nat
  clockCounter : Nat
deriving Repr, DecidableEq

/-- Go `func (c CPU) getFlag(flag uint8) bool { return c.status&flag > 0 }`. -/
def getFlag (c : CPUState) (flag : Nat) : Bool :=
  decide (0 < c.status &&& flag)

/-- Go `func (c *CPU) setFlag(flag uint8, v bool)`: `status |= flag` when
`v`, otherwise `status &= ^flag` (uint8 complement, i.e. xor with 255). -/
def setFlag (c : CPUState) (flag : Nat) (v : Bool) : CPUState :=
  if v then { c with status := c.status ||| flag }
  else { c with status := c.status &&& (255 ^^^ flag) }

/-- The thirteen addressing modes (the Go `addrMode` string constants,
one constructor per constant). -/
inductive AddrMode where
  | imm
  | zp
  | abs
  | zpx
  | zpy
  | absx
  | absy
  | ind
  | indx
  | indy
  | rel
  | acc
  | imp
deriving Repr, DecidableEq

/-- Go `addrModeFromString`: the switch over the thirteen recognised
token strings; any other string yields an error (Go returns
`(addrMode("UNKNOWN"), fmt.Errorf(...))`; the error side is what callers
check, so the result is an `Except`). -/
def addrModeFromString (s : String) : Except String AddrMode :=
  if s = "IMM" then .ok .imm
  else if s = "ZP" then .ok .zp
  else if s = "ABS" then .ok .abs
  else if s = "ZPX" then .ok .zpx
  else if s = "ZPY" then .ok .zpy
  else if s = "ABSX" then .ok .absx
  else if s = "ABSY" then .ok .absy
  else if s = "IND" then .ok .ind
  else if s = "INDX" then .ok .indx
  else if s = "INDY" then .ok .indy
  else if s = "REL" then .ok .rel
  else if s = "ACC" then .ok .acc
  else if s = "IMP" then .ok .imp
  else .error ("address mode couldn't be parsed from " ++ s)

/-- The thirteen recognised addressing-mode token strings. -/
def addrModeTokens : List String :=
  ["IMM", "ZP", "ABS", "ZPX", "ZPY", "ABSX", "ABSY", "IND", "INDX",
   "INDY", "REL", "ACC", "IMP"]

/-- The thirteen valid addressing-mode tags. -/
def validAddrModes : List AddrMode :=
  [.imm, .zp, .abs, .zpx, .zpy, .absx, .absy, .ind, .indx, .indy,
   .rel, .acc, .imp]

/-- An opcode handler (Go `opcodeFunc = func() uint8`, a closure over the
CPU and the bus): it may transform the register state and the bus, and
returns an extra cycle count (a uint8; the `% 256` is applied where the
Go type forces it, in `Tic`). -/
def OpFunc : Type := CPUState → Mem → CPUState × Mem × Nat

/-- The addressing-mode resolver (Go method `(c *CPU).doAddressMode`,
whose body is not part of the examined source): given the mode tag it
may transform the register state and the bus and returns the extra
cycle count.  Every theorem about `Tic` quantifies over it. -/
def Resolver : Type := AddrMode → CPUState → Mem → CPUState × Mem × Nat

/-- Go `instruction`: one opcode-table descriptor. -/
structure Instruction where
  name : String
  operate : OpFunc
  addrMode : AddrMode
  cycles : Nat

instance : Inhabited Instruction :=
  ⟨{ name := "", operate := fun c m => (c, m, 0), addrMode := .imp,
     cycles := 0 }⟩

/-- The Go `CPU` minus the scratch registers kept in `CPUState` and
minus the bus (threaded explicitly): the immutable opcode table, indexed
by opcode byte. -/
structure CPU where
  st : CPUState
  instructions : List Instruction

/-- Go `func (c *CPU) Tic()`.  Busy branch (`c.cycles != 0`): decrement
the counter and return.  Idle branch: read the opcode byte at `pc`
(uint8), increment `pc` (uint16 wrap), look the descriptor up in the
256-entry table, run the addressing-mode resolver (extra cycles `cc1`),
run the handler (extra cycles `cc2`), and set the remaining-cycle
counter to the uint8 sum `inst.cycles + cc1 + cc2`. -/
def Tic (resolver : Resolver) (cpu : CPU) (m : Mem) : CPU × Mem :=
  if cpu.st.cycles ≠ 0 then
    ({ cpu with st := { cpu.st with cycles := cpu.st.cycles - 1 } }, m)
  else
    let op := read8 m cpu.st.pc
    let s1 := { cpu.st with opcode := op, pc := (cpu.st.pc + 1) % 65536 }
    let inst := cpu.instructions.getD op default
    let r1 := resolver inst.addrMode s1 m
    let r2 := inst.operate r1.1 r1.2.1
    ({ cpu with
        st := { r2.1 with cycles := (inst.cycles + r1.2.2 + r2.2.2) % 256 } },
     r2.2.1)

/-- Go `func (c *CPU) Reset() {}`: the body in the source is empty, so
the state and the bus are returned unchanged. -/
def Reset (c : CPUState) (m : Mem) : CPUState × Mem := (c, m)

/-- Go `func (c *CPU) IRQ() {}`: the body in the source is empty, so the
state and the bus are returned unchanged. -/
def IRQ (c : CPUState) (m : Mem) : CPUState × Mem := (c, m)

/-- Go `func (c *CPU) NMI() {}`: the body in the source is empty, so the
state and the bus are returned unchanged. -/
def NMI (c : CPUState) (m : Mem) : CPUState × Mem := (c, m)

/-- Modelled from the spec: one entry of the declarative opcode
specification consumed at construction time — a
`{mnemonic, addressing-mode-token, base-cycle-count}` triple (§4.4, §6).
The matrix data itself and the code parsing it (`parseOpcodeMatrix`) are
not part of the examined source. -/
structure OpcodeSpecEntry where
  name : String
  mode : String
  cycles : Nat
deriving Repr, DecidableEq

/-- Modelled from the spec: parsing of one matrix entry — the
addressing-mode token goes through `addrModeFromString` (which is in the
source) and an unrecognised token fails the parse; the handler is looked
up by mnemonic (the handler bodies are not part of the examined
source, so the lookup function `ops` is a parameter); the base cycle
count is stored as a uint8. -/
def parseOpcodeEntry (ops : String → OpFunc) (e : OpcodeSpecEntry) :
    Except String Instruction :=
  match addrModeFromString e.mode with
  | .error msg => .error msg
  | .ok md =>
      .ok { name := e.name, operate := ops e.name, addrMode := md,
            cycles := e.cycles % 256 }

/-- Modelled from the spec: the entry-by-entry parse loop — each entry
is parsed in order and the first parse error aborts the whole parse. -/
def parseEntries (ops : String → OpFunc) :
    List OpcodeSpecEntry → Except String (List Instruction)
  | [] => .ok []
  | e :: es =>
    match parseOpcodeEntry ops e with
    | .error msg => .error msg
    | .ok i =>
      match parseEntries ops es with
      | .error msg => .error msg
      | .ok is => .ok (i :: is)

/-- Modelled from the spec: `parseOpcodeMatrix` (referenced by `NewCPU`
but absent from the examined source).  Per §4.4/§6 the input is a fixed
16×16 matrix of entries, one per byte value 0–255; position in the
flattened matrix is the opcode (per the source comment "Position in the
slice is opcode").  Construction fails on wrong dimensions (which, in
this positional format, is what a duplicated or missing opcode slot
amounts to) or on an unrecognised addressing-mode token. -/
def parseOpcodeMatrix (ops : String → OpFunc)
    (matrix : List (List OpcodeSpecEntry)) :
    Except String (List Instruction) :=
  if matrix.length = 16 ∧ ∀ row ∈ matrix, row.length = 16 then
    parseEntries ops matrix.flatten
  else
    .error "opcode matrix has wrong dimensions"

/-- Go `NewCPU`: the state starts zero-valued except `sp = 0xff`; the
opcode table is built by `parseOpcodeMatrix` and a parse error fails
construction. -/
def NewCPU (ops : String → OpFunc)
    (matrix : List (List OpcodeSpecEntry)) : Except String CPU :=
  match parseOpcodeMatrix ops matrix with
  | .error e => .error e
  | .ok tbl =>
      .ok { st := { regA := 0, regX := 0, regY := 0, sp := 0xff, pc := 0,
                    status := 0, fetched := 0, addrAbs := 0, addrRel := 0,
                    opcode := 0, cycles := 0, clockCounter := 0 },
            instructions := tbl }

/-! ## Helper lemmas -/

theorem parseEntries_ok_length (ops : String → OpFunc) :
    ∀ (es : List OpcodeSpecEntry) (is : List Instruction),
      parseEntries ops es = .ok is → is.length = es.length := by
  intro es
  induction es with
  | nil =>
    intro is h
    simp only [parseEntries] at h
    cases h
    rfl
  | cons e es ih =>
    intro is h
    simp only [parseEntries] at h
    cases he : parseOpcodeEntry ops e with
    | error msg => rw [he] at h; exact absurd h (by simp)
    | ok i =>
      rw [he] at h
      cases hes : parseEntries ops es with
      | error msg => rw [hes] at h; exact absurd h (by simp)
      | ok is' =>
        rw [hes] at h
        cases h
        simp [ih is' hes]

theorem parseEntries_ok_mem (ops : String → OpFunc) :
    ∀ (es : List OpcodeSpecEntry) (is : List Instruction),
      parseEntries ops es = .ok is →
      ∀ i ∈ is, ∃ e ∈ es, parseOpcodeEntry ops e = .ok i := by
  intro es
  induction es with
  | nil =>
    intro is h
    simp only [parseEntries] at h
    cases h
    intro i hi
    exact absurd hi (by simp)
  | cons e es ih =>
    intro is h
    simp only [parseEntries] at h
    cases he : parseOpcodeEntry ops e with
    | error msg => rw [he] at h; exact absurd h (by simp)
    | ok i0 =>
      rw [he] at h
      cases hes : parseEntries ops es with
      | error msg => rw [hes] at h; exact absurd h (by simp)
      | ok is' =>
        rw [hes] at h
        cases h
        intro i hi
        rcases List.mem_cons.mp hi with hi | hi
        · exact ⟨e, List.mem_cons_self e es, hi ▸ he⟩
        · rcases ih is' hes i hi with ⟨e', he', hpe⟩
          exact ⟨e', List.mem_cons_of_mem e he', hpe⟩

theorem parseEntries_ok_of_mem (ops : String → OpFunc) :
    ∀ (es : List OpcodeSpecEntry) (is : List Instruction),
      parseEntries ops es = .ok is →
      ∀ e ∈ es, ∃ i, parseOpcodeEntry ops e = .ok i := by
  intro es
  induction es with
  | nil =>
    intro is _ e he
    exact absurd he (by simp)
  | cons e0 es ih =>
    intro is h
    simp only [parseEntries] at h
    cases he : parseOpcodeEntry ops e0 with
    | error msg => rw [he] at h; exact absurd h (by simp)
    | ok i0 =>
      rw [he] at h
      cases hes : parseEntries ops es with
      | error msg => rw [hes] at h; exact absurd h (by simp)
      | ok is' =>
        intro e hmem
        rcases List.mem_cons.mp hmem with rfl | hmem
        · exact ⟨i0, he⟩
        · exact ih is' hes e hmem

theorem addrModeFromString_ok_mem (s : String) (md : AddrMode)
    (h : addrModeFromString s = .ok md) : s ∈ addrModeTokens := by
  unfold addrModeFromString at h
  unfold addrModeTokens
  by_cases h1 : s = "IMM"; · simp [h1]
  by_cases h2 : s = "ZP"; · simp [h2]
  by_cases h3 : s = "ABS"; · simp [h3]
  by_cases h4 : s = "ZPX"; · simp [h4]
  by_cases h5 : s = "ZPY"; · simp [h5]
  by_cases h6 : s = "ABSX"; · simp [h6]
  by_cases h7 : s = "ABSY"; · simp [h7]
  by_cases h8 : s = "IND"; · simp [h8]
  by_cases h9 : s = "INDX"; · simp [h9]
  by_cases h10 : s = "INDY"; · simp [h10]
  by_cases h11 : s = "REL"; · simp [h11]
  by_cases h12 : s = "ACC"; · simp [h12]
  by_cases h13 : s = "IMP"; · simp [h13]
  simp [h1, h2, h3, h4, h5, h6, h7, h8, h9, h10, h11, h12, h13] at h

theorem flatten_length_of_uniform {α : Type} :
    ∀ (L : List (List α)) (k : Nat), (∀ r ∈ L, r.length = k) →
      L.flatten.length = L.length * k := by
  intro L
  induction L with
  | nil => intro k _; simp
  | cons r L ih =>
    intro k hk
    have hr : r.length = k := hk r (List.mem_cons_self r L)
    have hL : ∀ r' ∈ L, r'.length = k := fun r' h => hk r' (List.mem_cons_of_mem r h)
    simp [List.flatten_cons, hr, ih k hL, Nat.succ_mul, Nat.add_comm]

theorem status_testBit_255 (k : Nat) :
    (255 : Nat).testBit k = decide (k < 8) := by
  rw [show (255 : Nat) = 2 ^ 8 - 1 by norm_num, Nat.testBit_two_pow_sub_one]

theorem status_bit_after_or (s i : Nat) : (s ||| 2 ^ i).testBit i = true := by
  simp [Nat.testBit_lor, Nat.testBit_two_pow]

theorem status_bit_after_clear (s i : Nat) (hi : i < 8) :
    (s &&& (255 ^^^ 2 ^ i)).testBit i = false := by
  simp [Nat.testBit_land, Nat.testBit_xor, status_testBit_255,
    Nat.testBit_two_pow, hi]

theorem status_other_bit_after_or (s i j : Nat) (hij : j ≠ i) :
    (s ||| 2 ^ i).testBit j = s.testBit j := by
  simp [Nat.testBit_lor, Nat.testBit_two_pow, Ne.symm hij]

theorem status_other_bit_after_clear (s i j : Nat) (hs : s < 256)
    (hij : j ≠ i) : (s &&& (255 ^^^ 2 ^ i)).testBit j = s.testBit j := by
  by_cases hj : j < 8
  · simp [Nat.testBit_land, Nat.testBit_xor, status_testBit_255,
      Nat.testBit_two_pow, hj, Ne.symm hij]
  · have hsj : s.testBit j = false := by
      apply Nat.testBit_lt_two_pow
      calc s < 256 := hs
        _ = 2 ^ 8 := by norm_num
        _ ≤ 2 ^ j := Nat.pow_le_pow_right (by norm_num) (Nat.le_of_not_lt hj)
    simp [Nat.testBit_land, hsj]

theorem and_two_pow_pos_iff_testBit (s i : Nat) :
    decide (0 < s &&& 2 ^ i) = s.testBit i := by
  rw [Nat.and_two_pow]
  cases h : s.testBit i <;> simp [h, Nat.pos_pow_of_pos]

/-! ## Claim theorems -/

/-- C7: for every status byte, every single-bit flag mask `2 ^ i`
(`i < 8`) and every boolean `v`: after `setFlag (2 ^ i) v`, `getFlag`
of that mask returns `v`; `setFlag` changes no bit of the status byte
other than bit `i`; `setFlag` leaves every other field of the CPU state
unchanged; and `getFlag` depends on nothing but the status byte. -/
theorem setFlag_getFlag_contract (c : CPUState) (i : Nat) (v : Bool)
    (hs : c.status < 256) (hi : i < 8) :
    getFlag (setFlag c (2 ^ i) v) (2 ^ i) = v
    ∧ (∀ j, j ≠ i →
        (setFlag c (2 ^ i) v).status.testBit j = c.status.testBit j)
    ∧ (setFlag c (2 ^ i) v).regA = c.regA
    ∧ (setFlag c (2 ^ i) v).regX = c.regX
    ∧ (setFlag c (2 ^ i) v).regY = c.regY
    ∧ (setFlag c (2 ^ i) v).sp = c.sp
    ∧ (setFlag c (2 ^ i) v).pc = c.pc
    ∧ (setFlag c (2 ^ i) v).fetched = c.fetched
    ∧ (setFlag c (2 ^ i) v).addrAbs = c.addrAbs
    ∧ (setFlag c (2 ^ i) v).addrRel = c.addrRel
    ∧ (setFlag c (2 ^ i) v).opcode = c.opcode
    ∧ (setFlag c (2 ^ i) v).cycles = c.cycles
    ∧ (setFlag c (2 ^ i) v).clockCounter = c.clockCounter
    ∧ (∀ c' : CPUState, c'.status = c.status →
        getFlag c' (2 ^ i) = getFlag c (2 ^ i)) := by
  refine ⟨?_, ?_, ?_, ?_, ?_, ?_, ?_, ?_, ?_, ?_, ?_, ?_, ?_, ?_⟩
  · cases v
    · simp only [setFlag, Bool.false_eq_true, if_false, getFlag]
      rw [and_two_pow_pos_iff_testBit]
      exact status_bit_after_clear c.status i hi
    · simp only [setFlag, if_true, getFlag]
      rw [and_two_pow_pos_iff_testBit]
      exact status_bit_after_or c.status i
  · intro j hj
    cases v
    · simp only [setFlag, Bool.false_eq_true, if_false]
      exact status_other_bit_after_clear c.status i j hs hj
    · simp only [setFlag, if_true]
      exact status_other_bit_after_or c.status i j hj
  all_goals first
    | (cases v <;> simp [setFlag])
    | (intro c' h; simp [getFlag, h])

/-- C7 witness: the contract at status `0x24`, bit 1 (the zero flag),
value `true`. -/
theorem setFlag_getFlag_contract_witness :
    ({ regA := 0, regX := 0, regY := 0, sp := 0xfd, pc := 0,
       status := 0x24, fetched := 0, addrAbs := 0, addrRel := 0,
       opcode := 0, cycles := 0, clockCounter := 0 } : CPUState).status < 256
    ∧ (1 : Nat) < 8
    ∧ getFlag
        (setFlag { regA := 0, regX := 0, regY := 0, sp := 0xfd, pc := 0,
                   status := 0x24, fetched := 0, addrAbs := 0, addrRel := 0,
                   opcode := 0, cycles := 0, clockCounter := 0 }
          (2 ^ 1) true) (2 ^ 1) = true :=
  ⟨by decide, by decide,
   (setFlag_getFlag_contract
     { regA := 0, regX := 0, regY := 0, sp := 0xfd, pc := 0,
       status := 0x24, fetched := 0, addrAbs := 0, addrRel := 0,
       opcode := 0, cycles := 0, clockCounter := 0 }
     1 true (by decide) (by decide)).1⟩

/-- A concrete register state used to evaluate theorems on concrete
inputs. -/
def sampleState : CPUState :=
  { regA := 0, regX := 0, regY := 0, sp := 0, pc := 0x1234, status := 0,
    fetched := 0, addrAbs := 0, addrRel := 0, opcode := 0, cycles := 0,
    clockCounter := 0 }

/-- A concrete bus: the NMI vector (`0xFFFA`/`0xFFFB`) holds the word
`0x4080`, the reset vector (`0xFFFC`/`0xFFFD`) holds the word `0x8000`,
and every other cell holds `0xEA`. -/
def sampleMem : Mem := fun addr =>
  if addr = 0xFFFA then 0x80
  else if addr = 0xFFFB then 0x40
  else if addr = 0xFFFC then 0x00
  else if addr = 0xFFFD then 0x80
  else 0xEA

/-- A concrete addressing-mode resolver that changes nothing and yields
no extra cycles. -/
def sampleResolver : Resolver := fun _ s m => (s, m, 0)

/-- C5: when the interrupt-disable flag is set, IRQ leaves the register
state and the bus unchanged and its result does not depend on the bus
(no memory access).  In the source `IRQ` has an empty body, so it is an
unconditional no-op; in particular it is a no-op in the masked case the
claim describes. -/
theorem irq_noop_when_interrupt_disabled (c : CPUState) (m : Mem)
    (h : getFlag c flagIBit = true) :
    IRQ c m = (c, m) ∧ ∀ m' : Mem, (IRQ c m').1 = (IRQ c m).1 :=
  ⟨rfl, fun _ => rfl⟩

/-- C5 witness: the no-op at a state whose status byte is exactly the
interrupt-disable bit. -/
theorem irq_noop_when_interrupt_disabled_witness :
    getFlag { sampleState with status := 4 } flagIBit = true
    ∧ IRQ { sampleState with status := 4 } sampleMem
        = ({ sampleState with status := 4 }, sampleMem) :=
  ⟨by decide,
   (irq_noop_when_interrupt_disabled { sampleState with status := 4 }
     sampleMem (by decide)).1⟩

/-- C3 (evidence that the code contradicts the claim): `Reset` in the
source has an empty body, so at a concrete prior state it returns the
state and bus unchanged — `SP` stays `0` instead of becoming `0xFD`, the
interrupt-disable flag stays clear, and `PC` stays `0x1234` rather than
the word `0x8000` stored at the reset vector `0xFFFC`. -/
theorem reset_stub_unchanged_at_sample :
    Reset sampleState sampleMem = (sampleState, sampleMem)
    ∧ (Reset sampleState sampleMem).1.sp = 0
    ∧ (Reset sampleState sampleMem).1.sp ≠ 0xFD
    ∧ getFlag (Reset sampleState sampleMem).1 flagIBit = false
    ∧ read8 sampleMem 0xFFFC + 256 * read8 sampleMem 0xFFFD = 0x8000
    ∧ (Reset sampleState sampleMem).1.pc = 0x1234 :=
  ⟨rfl, rfl, by decide, by decide, by decide, rfl⟩

/-- C4 (evidence that the code contradicts the claim): `NMI` in the
source has an empty body, so at a concrete prior state it returns the
state and bus unchanged — nothing is pushed (`SP` stays `0`, the bus is
untouched), the interrupt-disable flag stays clear, and `PC` stays
`0x1234` rather than the word `0x4080` stored at the NMI vector
`0xFFFA`. -/
theorem nmi_stub_unchanged_at_sample :
    NMI sampleState sampleMem = (sampleState, sampleMem)
    ∧ (NMI sampleState sampleMem).1.sp = sampleState.sp
    ∧ (NMI sampleState sampleMem).2 = sampleMem
    ∧ getFlag (NMI sampleState sampleMem).1 flagIBit = false
    ∧ read8 sampleMem 0xFFFA + 256 * read8 sampleMem 0xFFFB = 0x4080
    ∧ (NMI sampleState sampleMem).1.pc = 0x1234
    ∧ (NMI sampleState sampleMem).1.cycles = 0 :=
  ⟨rfl, rfl, rfl, by decide, by decide, rfl, rfl⟩

/-- C2: a step taken with a strictly positive remaining-cycle counter
only decrements that counter: every other field of the state, the
instruction table and the bus are unchanged (the first conjunct), the
result does not depend on the bus at all, i.e. no memory read is issued
(the second), and the engine is back to Idle (`cycles = 0`) exactly when
the counter was about to reach zero (the third). -/
theorem tic_busy_step (resolver : Resolver) (cpu : CPU) (m : Mem)
    (h : 0 < cpu.st.cycles) :
    Tic resolver cpu m
      = ({ cpu with st := { cpu.st with cycles := cpu.st.cycles - 1 } }, m)
    ∧ (∀ m' : Mem, (Tic resolver cpu m').1 = (Tic resolver cpu m).1)
    ∧ ((Tic resolver cpu m).1.st.cycles = 0 ↔ cpu.st.cycles = 1) := by
  have hne : cpu.st.cycles ≠ 0 := Nat.pos_iff_ne_zero.mp h
  refine ⟨by simp [Tic, hne], fun m' => by simp [Tic, hne], ?_⟩
  simp only [Tic, hne, if_pos, ne_eq, not_false_eq_true, if_true]
  constructor
  · intro h0; omega
  · intro h1; omega

/-- C2 witness: the busy step at a counter of 3. -/
theorem tic_busy_step_witness :
    0 < ({ st := { sampleState with cycles := 3 },
           instructions := [] } : CPU).st.cycles
    ∧ Tic sampleResolver
        { st := { sampleState with cycles := 3 }, instructions := [] }
        sampleMem
      = ({ st := { sampleState with cycles := 2 }, instructions := [] },
         sampleMem) :=
  ⟨by decide,
   (tic_busy_step sampleResolver
     { st := { sampleState with cycles := 3 }, instructions := [] }
     sampleMem (by decide)).1⟩

/-- C1: a step taken with a zero remaining-cycle counter (Idle) and the
bus attached fetches the opcode byte `op` at `pc` and stores it in the
opcode scratch field, advances `pc` by one wrapping modulo `2 ^ 16`,
looks up the descriptor `inst` for `op` in the table, runs the
addressing-mode resolver on that state (yielding state `s2`, bus `m2`
and extra cycles `c1`), runs the operation handler on the result
(yielding state `s3`, bus `m3` and extra cycles `c2`), and finally sets
the remaining-cycle counter to the uint8 sum
`(inst.cycles + c1 + c2) % 256`; the instruction table itself is
unchanged. -/
theorem tic_idle_step (resolver : Resolver) (cpu : CPU) (m : Mem)
    (op : Nat) (s1 : CPUState) (inst : Instruction) (s2 : CPUState)
    (m2 : Mem) (c1 : Nat) (s3 : CPUState) (m3 : Mem) (c2 : Nat)
    (hidle : cpu.st.cycles = 0)
    (hop : op = read8 m cpu.st.pc)
    (hs1 : s1 = { cpu.st with opcode := op, pc := (cpu.st.pc + 1) % 65536 })
    (hinst : inst = cpu.instructions.getD op default)
    (hresolve : resolver inst.addrMode s1 m = (s2, m2, c1))
    (hoperate : inst.operate s2 m2 = (s3, m3, c2)) :
    Tic resolver cpu m
      = ({ cpu with
            st := { s3 with cycles := (inst.cycles + c1 + c2) % 256 } },
         m3) := by
  subst hop hs1 hinst
  simp only [Tic]
  rw [if_neg (by simp [hidle])]
  simp only [hresolve, hoperate]

/-- C1 witness: the idle step at `pc = 0x1234` over the sample bus
(which holds `0xEA` there), an empty table (so the descriptor is the
default entry: implied mode, zero base cycles, a handler that changes
nothing) and the do-nothing resolver. -/
theorem tic_idle_step_witness :
    ({ st := sampleState, instructions := [] } : CPU).st.cycles = 0
    ∧ Tic sampleResolver { st := sampleState, instructions := [] }
        sampleMem
      = ({ st := { sampleState with opcode := 0xEA, pc := 0x1235, cycles := 0 },
           instructions := [] }, sampleMem) :=
  ⟨rfl,
   tic_idle_step sampleResolver
     { st := sampleState, instructions := [] } sampleMem
     0xEA
     { sampleState with opcode := 0xEA, pc := 0x1235 }
     default
     { sampleState with opcode := 0xEA, pc := 0x1235 }
     sampleMem 0
     { sampleState with opcode := 0xEA, pc := 0x1235 }
     sampleMem 0
     rfl (by decide) rfl rfl rfl rfl⟩

theorem addrMode_mem_valid (md : AddrMode) : md ∈ validAddrModes := by
  cases md <;> simp [validAddrModes]

theorem parseOpcodeEntry_ok_fields (ops : String → OpFunc)
    (e : OpcodeSpecEntry) (i : Instruction)
    (h : parseOpcodeEntry ops e = .ok i) :
    i.cycles = e.cycles % 256 ∧ i.name = e.name := by
  unfold parseOpcodeEntry at h
  cases hm : addrModeFromString e.mode with
  | error msg => rw [hm] at h; exact absurd h (by simp)
  | ok md => rw [hm] at h; cases h; exact ⟨rfl, rfl⟩

theorem parseOpcodeEntry_ok_mode (ops : String → OpFunc)
    (e : OpcodeSpecEntry) (i : Instruction)
    (h : parseOpcodeEntry ops e = .ok i) :
    ∃ md, addrModeFromString e.mode = .ok md := by
  unfold parseOpcodeEntry at h
  cases hm : addrModeFromString e.mode with
  | error msg => rw [hm] at h; exact absurd h (by simp)
  | ok md => exact ⟨md, rfl⟩

theorem parseOpcodeMatrix_ok_parts (ops : String → OpFunc)
    (matrix : List (List OpcodeSpecEntry)) (tbl : List Instruction)
    (h : parseOpcodeMatrix ops matrix = .ok tbl) :
    matrix.length = 16 ∧ (∀ row ∈ matrix, row.length = 16)
    ∧ parseEntries ops matrix.flatten = .ok tbl := by
  unfold parseOpcodeMatrix at h
  by_cases hc : matrix.length = 16 ∧ ∀ row ∈ matrix, row.length = 16
  · rw [if_pos hc] at h; exact ⟨hc.1, hc.2, h⟩
  · rw [if_neg hc] at h; exact absurd h (by simp)

theorem newCPU_ok_parts (ops : String → OpFunc)
    (matrix : List (List OpcodeSpecEntry)) (cpu : CPU)
    (h : NewCPU ops matrix = .ok cpu) :
    parseOpcodeMatrix ops matrix = .ok cpu.instructions
    ∧ cpu.st = { regA := 0, regX := 0, regY := 0, sp := 0xff, pc := 0,
                 status := 0, fetched := 0, addrAbs := 0, addrRel := 0,
                 opcode := 0, cycles := 0, clockCounter := 0 } := by
  unfold NewCPU at h
  cases hp : parseOpcodeMatrix ops matrix with
  | error e => rw [hp] at h; exact absurd h (by simp)
  | ok tbl => rw [hp] at h; cases h; exact ⟨rfl, rfl⟩

theorem newCPU_ok_table_length (ops : String → OpFunc)
    (matrix : List (List OpcodeSpecEntry)) (cpu : CPU)
    (h : NewCPU ops matrix = .ok cpu) : cpu.instructions.length = 256 := by
  obtain ⟨hp, -⟩ := newCPU_ok_parts ops matrix cpu h
  obtain ⟨hlen, hrows, hpe⟩ := parseOpcodeMatrix_ok_parts ops matrix cpu.instructions hp
  rw [parseEntries_ok_length ops matrix.flatten cpu.instructions hpe,
    flatten_length_of_uniform matrix 16 hrows, hlen]

/-- A handler-lookup function and a well-formed 16×16 opcode matrix used
to evaluate the construction theorems on concrete input. -/
def sampleOps : String → OpFunc := fun _ => fun c m => (c, m, 0)

/-- A 16×16 matrix whose 256 entries all carry mnemonic `NOP`, token
`IMP` and base cycle cost 2. -/
def sampleMatrix : List (List OpcodeSpecEntry) :=
  List.replicate 16
    (List.replicate 16 { name := "NOP", mode := "IMP", cycles := 2 })

/-- The instruction that parsing one `sampleMatrix` entry produces. -/
def sampleInstruction : Instruction :=
  { name := "NOP", operate := sampleOps "NOP", addrMode := .imp, cycles := 2 }

/-- The CPU that `NewCPU sampleOps sampleMatrix` produces. -/
def sampleCPU : CPU :=
  { st := { regA := 0, regX := 0, regY := 0, sp := 0xff, pc := 0,
            status := 0, fetched := 0, addrAbs := 0, addrRel := 0,
            opcode := 0, cycles := 0, clockCounter := 0 },
    instructions := List.replicate 256 sampleInstruction }

/-- C9: whenever construction succeeds, the returned state has
`A = X = Y = 0`, `PC = 0`, a zero status byte, zero remaining-cycle and
total-cycle counters, and `SP = 0xFF`. -/
theorem newCPU_initial_registers (ops : String → OpFunc)
    (matrix : List (List OpcodeSpecEntry)) (cpu : CPU)
    (h : NewCPU ops matrix = .ok cpu) :
    cpu.st.regA = 0 ∧ cpu.st.regX = 0 ∧ cpu.st.regY = 0
    ∧ cpu.st.pc = 0 ∧ cpu.st.status = 0 ∧ cpu.st.cycles = 0
    ∧ cpu.st.clockCounter = 0 ∧ cpu.st.sp = 0xFF := by
  obtain ⟨-, hst⟩ := newCPU_ok_parts ops matrix cpu h
  rw [hst]
  exact ⟨rfl, rfl, rfl, rfl, rfl, rfl, rfl, rfl⟩

set_option maxRecDepth 8192 in
/-- C9 witness: construction from the sample matrix succeeds and yields
the claimed register values. -/
theorem newCPU_initial_registers_witness :
    NewCPU sampleOps sampleMatrix = .ok sampleCPU
    ∧ sampleCPU.st.regA = 0 ∧ sampleCPU.st.status = 0
    ∧ sampleCPU.st.sp = 0xFF :=
  ⟨rfl,
   (newCPU_initial_registers sampleOps sampleMatrix sampleCPU rfl).1,
   (newCPU_initial_registers sampleOps sampleMatrix sampleCPU rfl).2.2.2.2.1,
   (newCPU_initial_registers sampleOps sampleMatrix sampleCPU rfl).2.2.2.2.2.2.2⟩

/-- C6: for every well-cycled matrix (each entry's base cycle count is
between 1 and 255, as the fixed 6502 matrix's counts are), successful
construction yields a 256-entry table in which every opcode byte 0–255
maps to a descriptor whose addressing-mode tag is one of the thirteen
valid modes and whose base cycle cost is at least 1. -/
theorem opcodeTable_total_and_valid (ops : String → OpFunc)
    (matrix : List (List OpcodeSpecEntry)) (cpu : CPU)
    (hcyc : ∀ row ∈ matrix, ∀ e ∈ row, 1 ≤ e.cycles ∧ e.cycles < 256)
    (h : NewCPU ops matrix = .ok cpu) :
    cpu.instructions.length = 256
    ∧ ∀ op : Nat, op < 256 →
        (cpu.instructions.getD op default).addrMode ∈ validAddrModes
        ∧ 1 ≤ (cpu.instructions.getD op default).cycles := by
  have hlen : cpu.instructions.length = 256 :=
    newCPU_ok_table_length ops matrix cpu h
  refine ⟨hlen, fun op hop => ?_⟩
  have hop' : op < cpu.instructions.length := by rw [hlen]; exact hop
  have hmem : cpu.instructions.getD op default ∈ cpu.instructions := by
    rw [List.getD_eq_getElem cpu.instructions default hop']
    exact List.getElem_mem hop'
  obtain ⟨hp, -⟩ := newCPU_ok_parts ops matrix cpu h
  obtain ⟨-, -, hpe⟩ :=
    parseOpcodeMatrix_ok_parts ops matrix cpu.instructions hp
  obtain ⟨e, hef, hok⟩ :=
    parseEntries_ok_mem ops matrix.flatten cpu.instructions hpe
      (cpu.instructions.getD op default) hmem
  obtain ⟨row, hrow, herow⟩ := List.mem_flatten.mp hef
  obtain ⟨h1, h2⟩ := hcyc row hrow e herow
  obtain ⟨hcycEq, -⟩ :=
    parseOpcodeEntry_ok_fields ops e (cpu.instructions.getD op default) hok
  constructor
  · exact addrMode_mem_valid _
  · rw [hcycEq, Nat.mod_eq_of_lt h2]
    exact h1

set_option maxRecDepth 8192 in
/-- C6 witness: the property at the sample matrix (whose entries all
have cycle count 2) and the table it constructs, checked at opcode 0. -/
theorem opcodeTable_total_and_valid_witness :
    (∀ row ∈ sampleMatrix, ∀ e ∈ row, 1 ≤ e.cycles ∧ e.cycles < 256)
    ∧ NewCPU sampleOps sampleMatrix = .ok sampleCPU
    ∧ sampleCPU.instructions.length = 256
    ∧ (sampleCPU.instructions.getD 0 default).addrMode ∈ validAddrModes
    ∧ 1 ≤ (sampleCPU.instructions.getD 0 default).cycles :=
  ⟨by decide, rfl,
   (opcodeTable_total_and_valid sampleOps sampleMatrix sampleCPU
     (by decide) rfl).1,
   ((opcodeTable_total_and_valid sampleOps sampleMatrix sampleCPU
     (by decide) rfl).2 0 (by decide)).1,
   ((opcodeTable_total_and_valid sampleOps sampleMatrix sampleCPU
     (by decide) rfl).2 0 (by decide)).2⟩

/-- C10: every successfully constructed CPU holds an instruction table
of length exactly 256, and the opcode value `Tic` indexes it with is a
uint8 read from memory (`read8 _ _ < 256`), so the descriptor lookup on
every Idle step is in bounds for every possible opcode byte. -/
theorem opcodeTable_index_in_bounds (ops : String → OpFunc)
    (matrix : List (List OpcodeSpecEntry)) (cpu : CPU)
    (h : NewCPU ops matrix = .ok cpu) :
    cpu.instructions.length = 256
    ∧ ∀ (m : Mem) (addr : Nat), read8 m addr < cpu.instructions.length := by
  have hlen : cpu.instructions.length = 256 :=
    newCPU_ok_table_length ops matrix cpu h
  refine ⟨hlen, fun m addr => ?_⟩
  rw [hlen]
  exact Nat.mod_lt _ (by norm_num)

set_option maxRecDepth 8192 in
/-- C10 witness: the bounds at the sample construction and the sample
bus. -/
theorem opcodeTable_index_in_bounds_witness :
    NewCPU sampleOps sampleMatrix = .ok sampleCPU
    ∧ sampleCPU.instructions.length = 256
    ∧ read8 sampleMem 0x1234 < sampleCPU.instructions.length :=
  ⟨rfl,
   (opcodeTable_index_in_bounds sampleOps sampleMatrix sampleCPU rfl).1,
   (opcodeTable_index_in_bounds sampleOps sampleMatrix sampleCPU rfl).2
     sampleMem 0x1234⟩

/-- C8: each of the thirteen recognised addressing-mode tokens parses to
its mode with no error; every other string yields a parse error; and a
matrix containing an entry with an unrecognised token makes CPU
construction fail. -/
theorem addrModeFromString_contract :
    (addrModeFromString "IMM" = .ok .imm
      ∧ addrModeFromString "ZP" = .ok .zp
      ∧ addrModeFromString "ABS" = .ok .abs
      ∧ addrModeFromString "ZPX" = .ok .zpx
      ∧ addrModeFromString "ZPY" = .ok .zpy
      ∧ addrModeFromString "ABSX" = .ok .absx
      ∧ addrModeFromString "ABSY" = .ok .absy
      ∧ addrModeFromString "IND" = .ok .ind
      ∧ addrModeFromString "INDX" = .ok .indx
      ∧ addrModeFromString "INDY" = .ok .indy
      ∧ addrModeFromString "REL" = .ok .rel
      ∧ addrModeFromString "ACC" = .ok .acc
      ∧ addrModeFromString "IMP" = .ok .imp)
    ∧ (∀ s : String, s ∉ addrModeTokens →
        addrModeFromString s
          = .error ("address mode couldn't be parsed from " ++ s))
    ∧ (∀ (ops : String → OpFunc) (matrix : List (List OpcodeSpecEntry))
        (row : List OpcodeSpecEntry) (e : OpcodeSpecEntry),
        row ∈ matrix → e ∈ row → e.mode ∉ addrModeTokens →
        ∀ cpu : CPU, NewCPU ops matrix ≠ .ok cpu) := by
  refine ⟨⟨rfl, rfl, rfl, rfl, rfl, rfl, rfl, rfl, rfl, rfl, rfl, rfl, rfl⟩,
    ?_, ?_⟩
  · intro s hs
    simp only [addrModeTokens, List.mem_cons, List.not_mem_nil, or_false,
      not_or] at hs
    obtain ⟨h1, h2, h3, h4, h5, h6, h7, h8, h9, h10, h11, h12, h13⟩ := hs
    simp [addrModeFromString, h1, h2, h3, h4, h5, h6, h7, h8, h9, h10,
      h11, h12, h13]
  · intro ops matrix row e hrow he hmode cpu h
    obtain ⟨hp, -⟩ := newCPU_ok_parts ops matrix cpu h
    obtain ⟨-, -, hpe⟩ :=
      parseOpcodeMatrix_ok_parts ops matrix cpu.instructions hp
    have hef : e ∈ matrix.flatten := List.mem_flatten.mpr ⟨row, hrow, he⟩
    obtain ⟨i, hi⟩ :=
      parseEntries_ok_of_mem ops matrix.flatten cpu.instructions hpe e hef
    obtain ⟨md, hmd⟩ := parseOpcodeEntry_ok_mode ops e i hi
    exact hmode (addrModeFromString_ok_mem e.mode md hmd)

/-- C8 witness: the token `FOO` is not recognised and parses to an
error. -/
theorem addrModeFromString_contract_witness :
    ("FOO" : String) ∉ addrModeTokens
    ∧ addrModeFromString "FOO"
        = .error ("address mode couldn't be parsed from " ++ "FOO") :=
  ⟨by decide, addrModeFromString_contract.2.1 "FOO" (by decide)⟩

end NesCpu
